import Mathlib

/-!
# Verification of the Insyte document-search core

Shallow embedding of the project-scoped semantic document search subsystem:

* `DocumentProcessor` — `src/utils/document_processor.py`
* `QAGenerator`       — `src/utils/qa_generator.py`
* `SearchManager`     — `src/ai/search_manager.py`
* `DataManager`       — `src/data/data_manager.py` (project / document / QA tables)

External libraries the Python code calls (pdfplumber, PyPDF2, python-docx,
sentence-transformers' encoder, Python's `re` engine) are modelled as oracle
function parameters; everything written in the repository itself is embedded
directly.  Machine text is `String` / `List Char`; file bytes are `Fin 256`;
similarity scores are `ℚ` (the code's float arithmetic is abstracted to exact
rationals — no claim below depends on rounding).
-/

namespace Insyte

/-- A raw file byte, as handed to `DocumentProcessor.process_file`. -/
abbrev Byte := Fin 256

/-- Is `b` a UTF-8 continuation byte (`0x80 ≤ b ≤ 0xBF`)? -/
def utf8Cont (b : Byte) : Bool := 0x80 ≤ b.val && b.val ≤ 0xBF

/-- Admissible second byte of a multi-byte UTF-8 sequence headed by `b1`
(strict decoding: no overlongs, no surrogates, max U+10FFFF, as Python's
`bytes.decode("utf-8")` enforces). -/
def utf8Second (b1 b2 : Byte) : Bool :=
  if b1.val = 0xE0 then 0xA0 ≤ b2.val && b2.val ≤ 0xBF
  else if b1.val = 0xED then 0x80 ≤ b2.val && b2.val ≤ 0x9F
  else if b1.val = 0xF0 then 0x90 ≤ b2.val && b2.val ≤ 0xBF
  else if b1.val = 0xF4 then 0x80 ≤ b2.val && b2.val ≤ 0x8F
  else utf8Cont b2

/-- Strict UTF-8 decoding of a byte list, `none` on any malformed sequence.
Models Python's `file_content.decode("utf-8")` (which raises
`UnicodeDecodeError` exactly when this returns `none`). -/
def utf8Decode? : List Byte → Option (List Char)
  | [] => some []
  | b1 :: t1 =>
    if b1.val < 0x80 then
      (utf8Decode? t1).map (Char.ofNat b1.val :: ·)
    else if 0xC2 ≤ b1.val && b1.val ≤ 0xDF then
      match t1 with
      | b2 :: t2 =>
        if utf8Cont b2 then
          (utf8Decode? t2).map (Char.ofNat ((b1.val - 0xC0) * 0x40 + (b2.val - 0x80)) :: ·)
        else none
      | [] => none
    else if 0xE0 ≤ b1.val && b1.val ≤ 0xEF then
      match t1 with
      | b2 :: b3 :: t3 =>
        if utf8Second b1 b2 && utf8Cont b3 then
          (utf8Decode? t3).map
            (Char.ofNat ((b1.val - 0xE0) * 0x1000 + (b2.val - 0x80) * 0x40 + (b3.val - 0x80)) :: ·)
        else none
      | _ => none
    else if 0xF0 ≤ b1.val && b1.val ≤ 0xF4 then
      match t1 with
      | b2 :: b3 :: b4 :: t4 =>
        if utf8Second b1 b2 && utf8Cont b3 && utf8Cont b4 then
          (utf8Decode? t4).map
            (Char.ofNat ((b1.val - 0xF0) * 0x40000 + (b2.val - 0x80) * 0x1000 +
              (b3.val - 0x80) * 0x40 + (b4.val - 0x80)) :: ·)
        else none
      | _ => none
    else none

/-- Latin-1 (ISO-8859-1) decoding of a single byte: the codec maps every byte
value `0 ≤ b ≤ 255` to the Unicode code point of the same value, so the check
never fails — but we keep the codec's "valid scalar value" guard so that
totality is a theorem about the codec, not baked into the type. -/
def latin1DecodeByte? (b : Byte) : Option Char :=
  if b.val < 0xD800 then some (Char.ofNat b.val) else none

/-- Latin-1 decoding of a byte list, models `file_content.decode("latin-1")`. -/
def latin1Decode? : List Byte → Option (List Char)
  | [] => some []
  | b :: t =>
    match latin1DecodeByte? b, latin1Decode? t with
    | some c, some cs => some (c :: cs)
    | _, _ => none

/-- Python's `str.lower()` (character-wise; the repository's extensions and
keywords are ASCII, where `Char.toLower` and Python agree). -/
def pyLower (s : String) : String := (s.toList.map Char.toLower).asString

end Insyte

namespace Insyte.DocumentProcessor

/-- One metadata value in the free-form metadata dicts the extractor returns. -/
inductive MetaVal where
  | nat (n : Nat)
  | str (s : String)
deriving DecidableEq, Repr

/-- Last index of character `c` in a character list (Python `str.rfind`,
restricted to single-character needles), `none` when absent. -/
def lastIndexOf? (c : Char) : List Char → Option Nat
  | [] => none
  | x :: xs =>
    match lastIndexOf? c xs with
    | some i => some (i + 1)
    | none => if x = c then some 0 else none

/-- `os.path.splitext` (POSIX flavour, as `genericpath._splitext` computes it):
split at the last `.` of the basename unless every character of the basename
before that dot is itself a dot (so `".txt"` has no extension while
`"a.txt"` does). -/
def splitext (p : String) : String × String :=
  let cs := p.toList
  let sepIndex : Int := match lastIndexOf? '/' cs with | some i => (i : Int) | none => -1
  let dotIndex : Int := match lastIndexOf? '.' cs with | some i => (i : Int) | none => -1
  if sepIndex < dotIndex then
    let filenameIndex := (sepIndex + 1).toNat
    let di := dotIndex.toNat
    if ((cs.drop filenameIndex).take (di - filenameIndex)).any (fun ch => ch ≠ '.') then
      ((cs.take di).asString, (cs.drop di).asString)
    else (p, "")
  else (p, "")

/-- The metadata dict `process_file` builds: the three base keys it always
sets, the extractor-specific keys merged in by `metadata.update(extra_meta)`,
and the `'error'` key added by the `except` handler. -/
structure ProcMetadata where
  filename : String
  file_type : String
  file_size : Nat
  extra : List (String × MetaVal)
  error : Option String
deriving DecidableEq, Repr

/-- The extraction backends `document_processor.py` imports.  Each is a
third-party library, modelled as an oracle: `Except.error` is a raised
exception, the payload pairs extracted text with the extractor-specific
metadata keys (`page_count`, `extraction_method`, ...).  `pdfplumber = none`
models the `ImportError` path (library not installed). -/
structure ExtractorBackends where
  pdfplumber : Option (List Byte → Except String (String × List (String × MetaVal)))
  pypdf2 : List Byte → Except String (String × List (String × MetaVal))
  docx : List Byte → Except String (String × List (String × MetaVal))

/-- `DocumentProcessor._process_pdf`: try pdfplumber first; only an
`ImportError` (library absent) falls through to PyPDF2, any other pdfplumber
exception propagates; the PyPDF2 block catches, logs and re-raises, which is
the same as propagating. -/
def process_pdf (be : ExtractorBackends) (file_content : List Byte) :
    Except String (String × List (String × MetaVal)) :=
  match be.pdfplumber with
  | some plumber => plumber file_content
  | none => be.pypdf2 file_content

/-- `DocumentProcessor._process_docx`: the `except` block logs and re-raises,
so the backend's exception propagates unchanged. -/
def process_docx (be : ExtractorBackends) (file_content : List Byte) :
    Except String (String × List (String × MetaVal)) :=
  be.docx file_content

/-- `DocumentProcessor._process_txt`: decode as UTF-8; on `UnicodeDecodeError`
retry as Latin-1; if that also raised, log and re-raise. -/
def process_txt (file_content : List Byte) : Except String String :=
  match utf8Decode? file_content with
  | some cs => .ok cs.asString
  | none =>
    match latin1Decode? file_content with
    | some cs => .ok cs.asString
    | none => .error "TXT decoding failed"

/-- `DocumentProcessor.process_file`: dispatch on the lower-cased extension;
the whole dispatch sits in a `try` whose `except Exception` handler records
the error message under the `'error'` metadata key and returns
`(None, metadata)`.  `Except.error` in the result would be an exception
escaping to the caller. -/
def process_file (be : ExtractorBackends) (file_content : List Byte) (filename : String) :
    Except String (Option String × ProcMetadata) :=
  let file_ext := pyLower (splitext filename).2
  let metadata : ProcMetadata :=
    { filename := filename, file_type := file_ext, file_size := file_content.length,
      extra := [], error := none }
  let attempt : Except String (Option String × ProcMetadata) :=
    if file_ext = ".pdf" then
      (process_pdf be file_content).map fun (text, extra_meta) =>
        (some text, { metadata with extra := extra_meta })
    else if file_ext = ".docx" ∨ file_ext = ".doc" then
      (process_docx be file_content).map fun (text, extra_meta) =>
        (some text, { metadata with extra := extra_meta })
    else if file_ext = ".txt" then
      (process_txt file_content).map fun text => (some text, metadata)
    else
      .ok (none, metadata)
  match attempt with
  | .ok v => .ok v
  | .error e => .ok (none, { metadata with error := some e })

end Insyte.DocumentProcessor

namespace Insyte

/-- Latin-1 decoding succeeds on every byte list: each byte value is below
`0xD800`, so the per-byte validity guard always passes. -/
theorem latin1Decode?_eq_some (content : List Byte) :
    latin1Decode? content = some (content.map fun b => Char.ofNat b.val) := by
  induction content with
  | nil => rfl
  | cons b t ih =>
    have hb : b.val < 0xD800 := lt_of_lt_of_le b.isLt (by norm_num)
    simp [latin1Decode?, latin1DecodeByte?, hb, ih]

end Insyte

namespace Insyte.DocumentProcessor

/-- Concrete backends whose extraction always raises, modelling a corrupt
input file under every installed extraction library. -/
def beFail : ExtractorBackends :=
  { pdfplumber := some fun _ => .error "corrupt PDF"
    pypdf2 := fun _ => .error "PDF extraction failed"
    docx := fun _ => .error "corrupt DOCX" }

/-- C9: `_process_txt` is total: if UTF-8 decoding fails the Latin-1 fallback
always succeeds, because Latin-1 maps every byte, so the final
"both decodings fail" propagate-error branch is unreachable and the function
always returns a string. -/
theorem process_txt_total (content : List Byte) :
    ∃ s, process_txt content = .ok s := by
  unfold process_txt
  cases h : utf8Decode? content with
  | some cs => exact ⟨cs.asString, rfl⟩
  | none =>
    rw [latin1Decode?_eq_some]
    exact ⟨_, rfl⟩

/-- C1 counterexample: on a corrupt PDF (every backend raises),
`process_file` does **not** propagate the exception — it returns the value
`(None, metadata)` with the error message recorded under the `'error'` key,
because its dispatch is wrapped in a catch-all `except Exception` handler. -/
theorem process_file_corrupt_pdf_returns :
    process_file beFail [] "corrupt.pdf" =
      .ok (none, { filename := "corrupt.pdf", file_type := ".pdf", file_size := 0,
                   extra := [], error := some "corrupt PDF" }) := by
  rfl

/-- C1 (amended): for every input file whose extraction backend raises,
`process_file` catches the exception and returns `(None, metadata)` with the
error message recorded in the metadata; no exception propagates to the
caller (the function is total). -/
theorem process_file_catches (be : ExtractorBackends) (content : List Byte)
    (filename : String) :
    (∃ v, process_file be content filename = .ok v) ∧
    (∀ e, pyLower (splitext filename).2 = ".pdf" →
      process_pdf be content = .error e →
      process_file be content filename =
        .ok (none, { filename := filename, file_type := ".pdf",
                     file_size := content.length, extra := [], error := some e })) ∧
    (∀ e, (pyLower (splitext filename).2 = ".docx" ∨
           pyLower (splitext filename).2 = ".doc") →
      process_docx be content = .error e →
      process_file be content filename =
        .ok (none, { filename := filename, file_type := pyLower (splitext filename).2,
                     file_size := content.length, extra := [], error := some e })) := by
  refine ⟨?_, ?_, ?_⟩
  · unfold process_file
    dsimp only
    split
    · exact ⟨_, rfl⟩
    · exact ⟨_, rfl⟩
  · intro e hext herr
    simp [process_file, hext, herr, Except.map]
  · rintro e (hext | hext) herr <;>
      simp [process_file, hext, herr, Except.map]

/-- C1 witness: applying `process_file_catches` to a concrete corrupt DOCX. -/
theorem process_file_catches_witness :
    process_file beFail [] "bad.doc" =
      .ok (none, { filename := "bad.doc", file_type := ".doc", file_size := 0,
                   extra := [], error := some "corrupt DOCX" }) :=
  (process_file_catches beFail [] "bad.doc").2.2 "corrupt DOCX" (Or.inr (by decide)) rfl

/-- C8: for every filename whose (lower-cased) extension is outside
`{.pdf, .docx, .doc, .txt}` and every byte content, `process_file` returns
`text = None` together with the base metadata (which records the unsupported
`file_type`), and no exception escapes this boundary. -/
theorem process_file_unsupported (be : ExtractorBackends) (content : List Byte)
    (filename : String)
    (h : pyLower (splitext filename).2 ∉ ([".pdf", ".docx", ".doc", ".txt"] : List String)) :
    process_file be content filename =
      .ok (none, { filename := filename, file_type := pyLower (splitext filename).2,
                   file_size := content.length, extra := [], error := none }) := by
  simp only [List.mem_cons, List.not_mem_nil, or_false, not_or] at h
  obtain ⟨h1, h2, h3, h4⟩ := h
  simp [process_file, h1, h2, h3, h4]

/-- C8 witness: a `.png` upload at a concrete input. -/
theorem process_file_unsupported_witness :
    process_file beFail [] "photo.png" =
      .ok (none, { filename := "photo.png", file_type := ".png", file_size := 0,
                   extra := [], error := none }) :=
  process_file_unsupported beFail [] "photo.png" (by decide)

end Insyte.DocumentProcessor

namespace Insyte.QAGenerator

/-- One generated question/answer record (`{'question', 'answer', 'source'}`). -/
structure QAPair where
  question : String
  answer : String
  source : String
deriving DecidableEq, Repr

/-- `self.min_answer_length` — minimum characters for an answer. -/
def min_answer_length : Nat := 100

/-- `self.max_answer_length` — maximum characters for an answer. -/
def max_answer_length : Nat := 500

/-- Python `str.isspace` characters relevant to `str.strip()` (ASCII range). -/
def pySpace (c : Char) : Bool :=
  c = ' ' || c = '\t' || c = '\n' || c = '\r' || c = '\x0b' || c = '\x0c'

/-- Python `str.strip()`. -/
def pyStrip (s : String) : String :=
  ((s.toList.dropWhile pySpace).reverse.dropWhile pySpace).reverse.asString

/-- Python `s[:n]` for `n ≥ 0` (slice of the first `n` characters). -/
def pyTake (n : Nat) (s : String) : String := (s.toList.take n).asString

/-- Does `sub` start the list `s`? -/
def pyStartsWith : List Char → List Char → Bool
  | [], _ => true
  | _ :: _, [] => false
  | a :: as, b :: bs => a = b && pyStartsWith as bs

/-- Containment at any offset. -/
def pyInAux (sub : List Char) : List Char → Bool
  | [] => pyStartsWith sub []
  | c :: rest => pyStartsWith sub (c :: rest) || pyInAux sub rest

/-- Python `sub in s` (substring containment). -/
def pyIn (sub s : String) : Bool := pyInAux sub.toList s.toList

/-- Python `text.split(sep)` for a single-character separator. -/
def splitOnChar (sep : Char) : List Char → List Char → List String
  | [], acc => [acc.reverse.asString]
  | c :: rest, acc =>
    if c = sep then acc.reverse.asString :: splitOnChar sep rest []
    else splitOnChar sep rest (c :: acc)

/-- Does `c` match the sentence-splitting character class `[.!?]`? -/
def sentenceDelim (c : Char) : Bool := c = '.' || c = '!' || c = '?'

mutual

/-- `re.split(r'[.!?]+', text)`: the segment accumulator state (`acc` holds
the current segment reversed). -/
def splitSentencesAux : List Char → List Char → List String
  | [], acc => [acc.reverse.asString]
  | c :: rest, acc =>
    if sentenceDelim c then acc.reverse.asString :: splitSentencesRun rest
    else splitSentencesAux rest (c :: acc)

/-- `re.split(r'[.!?]+', text)`: consuming the rest of a maximal delimiter
run after a segment was emitted. -/
def splitSentencesRun : List Char → List String
  | [] => [""]
  | c :: rest =>
    if sentenceDelim c then splitSentencesRun rest
    else splitSentencesAux rest [c]

end

/-- `QAGenerator._split_into_sentences`: split on `[.!?]+` runs, strip each
fragment, keep those longer than 20 characters. -/
def split_into_sentences (text : String) : List String :=
  let sentences := splitSentencesAux text.toList []
  (sentences.map pyStrip).filter (fun s => 20 < s.length)

/-- `QAGenerator._extract_context`: `sentences.index(target_sentence)` (first
match, `ValueError` branch returns the truncated target itself), then a
`±context_size` window joined with spaces and truncated to 500 characters.
Note `max(0, idx - context_size)` coincides with `Nat` subtraction. -/
def extract_context (sentences : List String) (target_sentence : String)
    (context_size : Nat) : String :=
  match sentences.indexOf? target_sentence with
  | some idx =>
    let start := idx - context_size
    let stop := min sentences.length (idx + context_size + 1)
    pyTake max_answer_length (String.intercalate " " ((sentences.drop start).take (stop - start)))
  | none => pyTake max_answer_length target_sentence

/-- `text.split('\n\n')` (split on the literal two-character separator,
non-overlapping, left to right). -/
def splitParagraphs : List Char → List Char → List String
  | [], acc => [acc.reverse.asString]
  | '\n' :: '\n' :: rest, acc => acc.reverse.asString :: splitParagraphs rest []
  | c :: rest, acc => splitParagraphs rest (c :: acc)

/-- `QAGenerator._extract_introduction`.  The two `re.search` probes for a
labeled `abstract`/`introduction` block are Python's `re` engine — an
external library — modelled by the oracle `searchBlock label text`, which
returns the captured group `(.{100,800})` when the pattern matches.  The
paragraph fallback is embedded directly. -/
def extract_introduction (searchBlock : String → String → Option String)
    (text : String) : String :=
  match searchBlock "abstract" text with
  | some g => pyTake max_answer_length (pyStrip g)
  | none =>
    match searchBlock "introduction" text with
    | some g => pyTake max_answer_length (pyStrip g)
    | none =>
      let paragraphs := ((splitParagraphs text.toList []).map pyStrip).filter
        (fun p => 50 < p.length)
      if paragraphs ≠ [] then
        pyTake max_answer_length (String.intercalate " " (paragraphs.take 2))
      else ""

/-- `QAGenerator._generate_metadata_questions`: the introduction pair (when
the intro text is non-empty) followed by the title pair (when the first line
is longer than 10 characters); both carry `source = filename`. -/
def generate_metadata_questions (searchBlock : String → String → Option String)
    (text filename : String) : List QAPair :=
  let first_line := pyStrip (pyTake 100 ((splitOnChar '\n' text.toList []).headD ""))
  let intro := extract_introduction searchBlock text
  (if intro ≠ "" then
    [{ question := "What is this document about?", answer := intro, source := filename }]
   else []) ++
  (if 10 < first_line.length then
    [{ question := "What is the title or main topic?", answer := first_line, source := filename }]
   else [])

/-- The fixed topic keyword set. -/
def topic_keywords : List String :=
  ["about", "focuses on", "discusses", "covers", "examines", "explores"]

/-- Inner loop of `_generate_topic_questions` over the first-20 window: on the
first sentence containing a topic keyword whose ±2 context reaches the
minimum length, emit the single topic pair; otherwise keep scanning. -/
def topicLoop (sentences : List String) : List String → List QAPair
  | [] => []
  | sentence :: rest =>
    if topic_keywords.any (fun kw => pyIn kw (pyLower sentence)) then
      let answer := extract_context sentences sentence 2
      if min_answer_length ≤ answer.length then
        [{ question := "What are the main topics covered?", answer := answer,
           source := "document" }]
      else topicLoop sentences rest
    else topicLoop sentences rest

/-- `QAGenerator._generate_topic_questions` (its `text` argument is unused in
the source). -/
def generate_topic_questions (sentences : List String) : List QAPair :=
  topicLoop sentences (sentences.take 20)

/-- The stoplist of over-common terms in `_generate_definition_questions`. -/
def definition_stoplist : List String := ["this", "that", "these", "those", "it"]

/-- Per-sentence match loop of `_generate_definition_questions`: `ms` is the
stream of `(group 1, group 2)` captures `re.finditer` yields for the three
definition patterns over this sentence (in pattern order), supplied by the
`re`-engine oracle.  Returns the updated accumulator and whether the 3-pair
cap triggered an early return. -/
def defMatchesLoop (sentences : List String) (sentence : String) :
    List (String × String) → List QAPair → List QAPair × Bool
  | [], acc => (acc, false)
  | (g1, _g2) :: ms, acc =>
    let term := pyStrip g1
    if term.length < 5 ∨ pyLower term ∈ definition_stoplist then
      defMatchesLoop sentences sentence ms acc
    else
      let answer := extract_context sentences sentence 2
      if min_answer_length ≤ answer.length then
        let acc' := { question := "What is " ++ term ++ "?", answer := answer,
                      source := "document" } :: acc
        if 3 ≤ acc'.length then (acc', true)
        else defMatchesLoop sentences sentence ms acc'
      else defMatchesLoop sentences sentence ms acc

/-- Sentence loop of `_generate_definition_questions` over the first-30
window (`acc` holds emitted pairs in reverse). -/
def defSentences (defMatcher : String → List (String × String))
    (sentences : List String) : List String → List QAPair → List QAPair
  | [], acc => acc.reverse
  | sentence :: rest, acc =>
    match defMatchesLoop sentences sentence (defMatcher sentence) acc with
    | (acc', true) => acc'.reverse
    | (acc', false) => defSentences defMatcher sentences rest acc'

/-- `QAGenerator._generate_definition_questions` (its `text` argument is
unused in the source). -/
def generate_definition_questions (defMatcher : String → List (String × String))
    (sentences : List String) : List QAPair :=
  defSentences defMatcher sentences (sentences.take 30) []

/-- The fixed method/process keyword set. -/
def method_keywords : List String :=
  ["how", "process", "method", "approach", "technique", "system", "works"]

/-- Loop of `_generate_method_questions` over the first-30 window: first
keyword-bearing sentence whose ±3 context reaches the minimum length yields
the single method pair. -/
def methodLoop (sentences : List String) : List String → List QAPair
  | [] => []
  | sentence :: rest =>
    if method_keywords.any (fun kw => pyIn kw (pyLower sentence)) then
      let answer := extract_context sentences sentence 3
      if min_answer_length ≤ answer.length then
        [{ question := "How does the system/process work?", answer := answer,
           source := "document" }]
      else methodLoop sentences rest
    else methodLoop sentences rest

/-- `QAGenerator._generate_method_questions` (its `text` argument is unused in
the source). -/
def generate_method_questions (sentences : List String) : List QAPair :=
  methodLoop sentences (sentences.take 30)

/-- `QAGenerator.generate_qa_pairs`: sentence split; early `[]` when no
sentence survives; then the four stages appended in order and the whole list
truncated to `max_pairs`.  The two `re`-engine probes are the oracle
parameters `searchBlock` (labeled abstract/introduction block) and
`defMatcher` (definition-pattern captures per sentence). -/
def generate_qa_pairs (searchBlock : String → String → Option String)
    (defMatcher : String → List (String × String))
    (text filename : String) (max_pairs : Nat) : List QAPair :=
  let sentences := split_into_sentences text
  if sentences = [] then []
  else
    ((generate_metadata_questions searchBlock text filename) ++
     (generate_topic_questions sentences) ++
     (generate_definition_questions defMatcher sentences) ++
     (generate_method_questions sentences)).take max_pairs

theorem length_asString (l : List Char) : (List.asString l).length = l.length := rfl

theorem pyTake_length_le (n : Nat) (s : String) : (pyTake n s).length ≤ n := by
  simp only [pyTake, length_asString]
  exact List.length_take_le n s.toList

theorem pyStrip_length_le (s : String) : (pyStrip s).length ≤ s.length := by
  have h1 : (s.toList.dropWhile pySpace).length ≤ s.toList.length :=
    (List.IsSuffix.sublist (List.dropWhile_suffix pySpace)).length_le
  have h2 : ((s.toList.dropWhile pySpace).reverse.dropWhile pySpace).length ≤
      (s.toList.dropWhile pySpace).reverse.length :=
    (List.IsSuffix.sublist (List.dropWhile_suffix pySpace)).length_le
  simp only [pyStrip, length_asString, List.length_reverse]
  calc ((s.toList.dropWhile pySpace).reverse.dropWhile pySpace).length
      ≤ (s.toList.dropWhile pySpace).reverse.length := h2
    _ = (s.toList.dropWhile pySpace).length := List.length_reverse _
    _ ≤ s.toList.length := h1
    _ = s.length := rfl

theorem extract_context_length_le (sentences : List String) (t : String) (cs : Nat) :
    (extract_context sentences t cs).length ≤ max_answer_length := by
  unfold extract_context
  cases sentences.indexOf? t <;> simp [pyTake_length_le]

theorem extract_introduction_length_le (sb : String → String → Option String)
    (text : String) :
    (extract_introduction sb text).length ≤ max_answer_length := by
  unfold extract_introduction
  cases sb "abstract" text with
  | some g => exact pyTake_length_le _ _
  | none =>
    cases sb "introduction" text with
    | some g => exact pyTake_length_le _ _
    | none =>
      dsimp only
      split
      · exact pyTake_length_le _ _
      · simp [max_answer_length]

/-- What topic/definition/method-stage pairs always satisfy: they come from
context windows that pass the minimum-length guard and are truncated at the
maximum length, and carry `source = "document"`. -/
def GoodContentPair (p : QAPair) : Prop :=
  p.source = "document" ∧ min_answer_length ≤ p.answer.length ∧
    p.answer.length ≤ max_answer_length

theorem topicLoop_good (sentences : List String) :
    ∀ l, ∀ p ∈ topicLoop sentences l, GoodContentPair p := by
  intro l
  induction l with
  | nil => intro p hp; simp [topicLoop] at hp
  | cons s rest ih =>
    intro p hp
    rw [topicLoop] at hp
    split at hp
    · dsimp only at hp
      split at hp
      · rename_i hlen
        simp only [List.mem_singleton] at hp
        subst hp
        exact ⟨rfl, hlen, extract_context_length_le _ _ _⟩
      · exact ih p hp
    · exact ih p hp

theorem methodLoop_good (sentences : List String) :
    ∀ l, ∀ p ∈ methodLoop sentences l, GoodContentPair p := by
  intro l
  induction l with
  | nil => intro p hp; simp [methodLoop] at hp
  | cons s rest ih =>
    intro p hp
    rw [methodLoop] at hp
    split at hp
    · dsimp only at hp
      split at hp
      · rename_i hlen
        simp only [List.mem_singleton] at hp
        subst hp
        exact ⟨rfl, hlen, extract_context_length_le _ _ _⟩
      · exact ih p hp
    · exact ih p hp

theorem defMatchesLoop_good (sentences : List String) (sentence : String) :
    ∀ ms acc, (∀ q ∈ acc, GoodContentPair q) →
      ∀ p ∈ (defMatchesLoop sentences sentence ms acc).1, GoodContentPair p := by
  intro ms
  induction ms with
  | nil => intro acc hacc p hp; simpa [defMatchesLoop] using hacc p (by simpa [defMatchesLoop] using hp)
  | cons m rest ih =>
    intro acc hacc p hp
    obtain ⟨g1, g2⟩ := m
    rw [defMatchesLoop] at hp
    dsimp only at hp
    split at hp
    · exact ih acc hacc p hp
    · split at hp
      · rename_i hlen
        split at hp
        · simp only at hp
          rcases List.mem_cons.mp hp with h | h
          · subst h; exact ⟨rfl, hlen, extract_context_length_le _ _ _⟩
          · exact hacc p h
        · refine ih _ ?_ p hp
          intro q hq
          rcases List.mem_cons.mp hq with h | h
          · subst h; exact ⟨rfl, hlen, extract_context_length_le _ _ _⟩
          · exact hacc q h
      · exact ih acc hacc p hp

theorem defSentences_good (dm : String → List (String × String))
    (sentences : List String) :
    ∀ pending acc, (∀ q ∈ acc, GoodContentPair q) →
      ∀ p ∈ defSentences dm sentences pending acc, GoodContentPair p := by
  intro pending
  induction pending with
  | nil =>
    intro acc hacc p hp
    rw [defSentences] at hp
    exact hacc p (List.mem_reverse.mp hp)
  | cons s rest ih =>
    intro acc hacc p hp
    rw [defSentences] at hp
    have hm := defMatchesLoop_good sentences s (dm s) acc hacc
    rcases hflag : defMatchesLoop sentences s (dm s) acc with ⟨acc', flag⟩
    rw [hflag] at hp hm
    cases flag with
    | true =>
      simp only at hp
      exact hm p (List.mem_reverse.mp hp)
    | false =>
      simp only at hp
      exact ih acc' hm p hp

theorem generate_metadata_questions_shape (sb : String → String → Option String)
    (text filename : String) :
    ∀ p ∈ generate_metadata_questions sb text filename,
      p.source = filename ∧ p.answer.length ≤ max_answer_length := by
  intro p hp
  rw [generate_metadata_questions] at hp
  rcases List.mem_append.mp hp with h | h
  · split at h
    · simp only [List.mem_singleton] at h
      subst h
      exact ⟨rfl, extract_introduction_length_le sb text⟩
    · simp at h
  · split at h
    · simp only [List.mem_singleton] at h
      subst h
      refine ⟨rfl, ?_⟩
      calc (pyStrip (pyTake 100 ((splitOnChar '\n' text.toList []).headD ""))).length
          ≤ (pyTake 100 ((splitOnChar '\n' text.toList []).headD "")).length :=
            pyStrip_length_le _
        _ ≤ 100 := pyTake_length_le _ _
        _ ≤ max_answer_length := by simp [max_answer_length]
    · simp at h

/-- C2 counterexample: on the concrete text below (no sentence punctuation,
no abstract/introduction label, no topic/definition/method trigger — the
`re`-oracle instantiations `fun _ _ => none` and `fun _ => []` are exactly
what Python's `re` returns on this input), `generate_qa_pairs` produces the
two metadata pairs, whose answers (86 and 18 characters) are both shorter
than the configured 100-character minimum, refuting "every answer it returns
has length at least the configured minimum". -/
theorem generate_qa_pairs_short_answer :
    generate_qa_pairs (fun _ _ => none) (fun _ => [])
      "A short title line\nand a second line of plain words without keywords at all here today"
      "doc.txt" 10 =
    [{ question := "What is this document about?",
       answer := "A short title line\nand a second line of plain words without keywords at all here today",
       source := "doc.txt" },
     { question := "What is the title or main topic?", answer := "A short title line",
       source := "doc.txt" }] ∧
    (generate_qa_pairs (fun _ _ => none) (fun _ => [])
      "A short title line\nand a second line of plain words without keywords at all here today"
      "doc.txt" 10).all (fun p => p.answer.length < min_answer_length) = true := by
  constructor
  · decide
  · decide

/-- C2 (amended): `generate_qa_pairs` returns at most `max_pairs` pairs and
every answer is at most the configured 500-character maximum; every answer of
the topic/definition/method stages (recognisable by `source = "document"`,
assuming the uploaded filename is not itself the literal `"document"`) also
meets the 100-character minimum — but the two metadata-stage answers are not
length-checked and may be shorter. -/
theorem generate_qa_pairs_bounds (sb : String → String → Option String)
    (dm : String → List (String × String)) (text filename : String) (max_pairs : Nat)
    (hfn : filename ≠ "document") :
    (generate_qa_pairs sb dm text filename max_pairs).length ≤ max_pairs ∧
    ∀ p ∈ generate_qa_pairs sb dm text filename max_pairs,
      p.answer.length ≤ max_answer_length ∧
      (p.source = "document" → min_answer_length ≤ p.answer.length) := by
  unfold generate_qa_pairs
  dsimp only
  split
  · simp
  · refine ⟨List.length_take_le _ _, ?_⟩
    intro p hp
    have hp' := List.mem_of_mem_take hp
    rcases List.mem_append.mp hp' with h3 | hD
    · rcases List.mem_append.mp h3 with h2 | hC
      · rcases List.mem_append.mp h2 with hA | hB
        · have := generate_metadata_questions_shape sb text filename p hA
          refine ⟨this.2, fun hsrc => absurd ?_ hfn⟩
          rw [← this.1, hsrc]
        · have := topicLoop_good _ _ p hB
          exact ⟨this.2.2, fun _ => this.2.1⟩
      · have := defSentences_good dm _ _ [] (by simp) p hC
        exact ⟨this.2.2, fun _ => this.2.1⟩
    · have := methodLoop_good _ _ p hD
      exact ⟨this.2.2, fun _ => this.2.1⟩

/-- C2 witness: the bounds theorem applied at a concrete call. -/
theorem generate_qa_pairs_bounds_witness :
    (generate_qa_pairs (fun _ _ => none) (fun _ => []) "Short note" "note.txt" 3).length ≤ 3 ∧
    ∀ p ∈ generate_qa_pairs (fun _ _ => none) (fun _ => []) "Short note" "note.txt" 3,
      p.answer.length ≤ max_answer_length ∧
      (p.source = "document" → min_answer_length ≤ p.answer.length) :=
  generate_qa_pairs_bounds (fun _ _ => none) (fun _ => []) "Short note" "note.txt" 3
    (by decide)

end Insyte.QAGenerator

namespace Insyte.SearchManager

open Insyte.DocumentProcessor (MetaVal)

/-- An embedding vector.  The code's float32 vectors are abstracted to exact
rationals; no claim below depends on floating-point rounding. -/
abbrev Embedding := List ℚ

/-- The loaded `SentenceTransformer.encode` function (with
`normalize_embeddings=True`): an external model, modelled as an oracle; a
raised exception is `Except.error`. -/
abbrev EncodeFn := List String → Except String (List Embedding)

/-- A per-document metadata dict. -/
abbrev MetaDict := List (String × MetaVal)

/-- `faiss.IndexFlatIP`: a flat index of `d`-dimensional vectors searched by
inner product.  `ntotal` is the entry count; an entry's position is its row
id. -/
structure IndexFlatIP where
  d : Nat
  vectors : List Embedding
deriving DecidableEq, Repr

/-- `index.ntotal`. -/
def IndexFlatIP.ntotal (idx : IndexFlatIP) : Nat := idx.vectors.length

/-- Inner product of two vectors. -/
def innerProduct (u v : Embedding) : ℚ := (List.zipWith (· * ·) u v).sum

/-- `index.add(embeddings)`: faiss asserts every row has the index dimension
(raising on mismatch) and otherwise appends the rows in order. -/
def IndexFlatIP.add (idx : IndexFlatIP) (embs : List Embedding) :
    Except String IndexFlatIP :=
  if embs.all (fun e => e.length = idx.d) then
    .ok { idx with vectors := idx.vectors ++ embs }
  else .error "added vectors must match index dimension"

/-- Ordering of scored rows used by the index backend: higher inner-product
score first. -/
def scoreGe (x y : ℚ × ℤ) : Prop := y.1 ≤ x.1

instance : DecidableRel scoreGe := fun x y => inferInstanceAs (Decidable (y.1 ≤ x.1))

instance : IsTotal (ℚ × ℤ) scoreGe := ⟨fun a b => le_total b.1 a.1⟩

instance : IsTrans (ℚ × ℤ) scoreGe := ⟨fun _ _ _ h1 h2 => le_trans h2 h1⟩

/-- Score every stored row against the query vector, keeping its row id. -/
def scoredRows (idx : IndexFlatIP) (q : Embedding) : List (ℚ × ℤ) :=
  idx.vectors.enum.map fun iv => (innerProduct q iv.2, (iv.1 : ℤ))

/-- `index.search(query_matrix, k)` for a single query row: the `k` nearest
rows by inner product, ordered by score descending, as `(score, row id)`
pairs; faiss raises on a query-dimension mismatch.  With `k ≤ ntotal` (which
is how `search` calls it) no `-1` sentinel padding occurs, but row ids keep
the backend's signed type. -/
def IndexFlatIP.searchTop (idx : IndexFlatIP) (q : Embedding) (k : Nat) :
    Except String (List (ℚ × ℤ)) :=
  if q.length = idx.d then
    .ok ((List.insertionSort scoreGe (scoredRows idx q)).take k)
  else .error "query dimension mismatch"

/-- The mutable state of `SearchManager` relevant to indexing and search
(`index_path`/`metadata_path` only matter to `save_index`/`load_index`,
which are out of the claims' scope). -/
structure State where
  embedding_model : Option EncodeFn
  index : Option IndexFlatIP
  documents : List String
  metadata : List MetaDict

/-- The `__init__` state: no model, no index, empty document store. -/
def State.init : State :=
  { embedding_model := none, index := none, documents := [], metadata := [] }

/-- `SearchManager.create_index(dimension)`: allocates a fresh empty
`IndexFlatIP` and clears `documents`/`metadata`.  The source wraps this in
`try/except` returning `False`, but plain `faiss.IndexFlatIP(dimension)`
allocation does not raise, so the failure branch is dead; note the embedding
model is **not** consulted. -/
def create_index (sm : State) (dimension : Nat) : Bool × State :=
  (true, { sm with index := some { d := dimension, vectors := [] },
                   documents := [], metadata := [] })

/-- The synthesized per-document metadata when the caller passes none:
`{"id": i, "source": "unknown"}`. -/
def defaultMetadata (n : Nat) : List MetaDict :=
  (List.range n).map fun i => [("id", MetaVal.nat i), ("source", MetaVal.str "unknown")]

/-- `SearchManager.add_documents(documents, metadata)`: raises
`RuntimeError` unless both the model and the index are present
(`Except.error`); then embeds, adds to the index and extends the parallel
lists, with any embedding/index exception caught and converted to a `False`
return that leaves the state as it was. -/
def add_documents (sm : State) (documents : List String)
    (metadata? : Option (List MetaDict)) : Except String (Bool × State) :=
  match sm.embedding_model, sm.index with
  | some encode, some index =>
    let metadata := match metadata? with
      | none => defaultMetadata documents.length
      | some m => m
    match (do
      let embeddings ← encode documents
      let index' ← index.add embeddings
      pure { sm with index := some index',
                     documents := sm.documents ++ documents,
                     metadata := sm.metadata ++ metadata } : Except String State) with
    | .ok sm' => .ok (true, sm')
    | .error _ => .ok (false, sm)
  | _, _ => .error "Model and index must be loaded first"

/-- One formatted search result
(`{"document", "metadata", "score", "index"}`). -/
structure SearchResult where
  document : String
  metadata : MetaDict
  score : ℚ
  index : ℤ
deriving DecidableEq, Repr

/-- The result-formatting loop of `search`: keep rows with non-negative id
and score at or above the threshold, in backend order; a list-indexing error
anywhere aborts the whole loop (Python's exception discards the partial
`results`). -/
def resultsLoop (docs : List String) (meta : List MetaDict) (threshold : ℚ) :
    List (ℚ × ℤ) → Except String (List SearchResult)
  | [] => .ok []
  | (score, idx) :: rest =>
    if 0 ≤ idx ∧ threshold ≤ score then
      match docs.get? idx.toNat, meta.get? idx.toNat with
      | some d, some m =>
        (resultsLoop docs meta threshold rest).map
          ({ document := d, metadata := m, score := score, index := idx } :: ·)
      | _, _ => .error "list index out of range"
    else resultsLoop docs meta threshold rest

/-- The body of `search`'s `try` block: embed the query, search the index
for `min(k, ntotal)` rows, format results. -/
def searchBody (encode : EncodeFn) (index : IndexFlatIP) (docs : List String)
    (meta : List MetaDict) (query : String) (k : Nat) (threshold : ℚ) :
    Except String (List SearchResult) :=
  match encode [query] with
  | .error e => .error e
  | .ok rows =>
    match rows.head? with
    | none => .error "empty embedding batch"
    | some q =>
      match index.searchTop q (min k index.ntotal) with
      | .error e => .error e
      | .ok top => resultsLoop docs meta threshold top

/-- `SearchManager.search(query, k, threshold)`: `RuntimeError` when model or
index is missing; immediate `[]` on an empty index (before any embedding
call); otherwise the `try` body, with any exception caught and converted to
`[]`. -/
def search (sm : State) (query : String) (k : Nat) (threshold : ℚ) :
    Except String (List SearchResult) :=
  match sm.embedding_model, sm.index with
  | some encode, some index =>
    if index.ntotal = 0 then .ok []
    else
      match searchBody encode index sm.documents sm.metadata query k threshold with
      | .ok results => .ok results
      | .error _ => .ok []
  | _, _ => .error "Model and index must be loaded first"

/-- C4 counterexample: in the `Uninitialized` state (fresh `__init__`, no
embedding model loaded), `create_index(384)` does **not** fail: it returns
`True` and allocates an index, because the source never checks
`self.embedding_model`. -/
theorem create_index_uninitialized_succeeds :
    (create_index State.init 384).1 = true ∧
    (create_index State.init 384).2.embedding_model = none ∧
    (create_index State.init 384).2.index = some { d := 384, vectors := [] } :=
  ⟨rfl, rfl, rfl⟩

/-- C4 (amended): `create_index(dimension)` succeeds in **every** engine
state — it does not require the embedding model to be loaded — and whenever
it runs it installs a fresh empty index of the requested dimension and
clears any prior documents and metadata (leaving the model slot as it
was). -/
theorem create_index_any_state (sm : State) (dimension : Nat) :
    (create_index sm dimension).1 = true ∧
    (create_index sm dimension).2.index = some { d := dimension, vectors := [] } ∧
    (create_index sm dimension).2.documents = [] ∧
    (create_index sm dimension).2.metadata = [] ∧
    (create_index sm dimension).2.embedding_model = sm.embedding_model :=
  ⟨rfl, rfl, rfl, rfl, rfl⟩

/-- C6: `search` and `add_documents` raise the explicit
`"Model and index must be loaded first"` failure whenever the embedding
model or the index is missing (they do not return a sentinel), and `search`
on an index holding zero documents returns `[]` for **every** encode
function — in particular for one that would fail if invoked, showing the
embedding model is not consulted on that path. -/
theorem search_add_preconditions (sm : State) (query : String) (k : Nat)
    (threshold : ℚ) (docs : List String) (meta? : Option (List MetaDict)) :
    (sm.embedding_model = none ∨ sm.index = none →
      search sm query k threshold = .error "Model and index must be loaded first" ∧
      add_documents sm docs meta? = .error "Model and index must be loaded first") ∧
    (∀ encode index, sm.embedding_model = some encode → sm.index = some index →
      index.ntotal = 0 → search sm query k threshold = .ok []) := by
  obtain ⟨em, ix, docs0, meta0⟩ := sm
  refine ⟨?_, ?_⟩
  · rintro (h | h)
    · replace h : em = none := h
      subst h
      cases ix <;> exact ⟨rfl, rfl⟩
    · replace h : ix = none := h
      subst h
      cases em <;> exact ⟨rfl, rfl⟩
  · rintro encode index h1 h2 h3
    replace h1 : em = some encode := h1
    replace h2 : ix = some index := h2
    subst h1; subst h2
    simp [search, h3]

/-- A concrete encode oracle (constant unit vector per input). -/
def encZero : EncodeFn := fun qs => .ok (qs.map fun _ => [(1 : ℚ), 0])

/-- A loaded state whose index holds zero documents. -/
def emptyIndexState : State :=
  { embedding_model := some encZero, index := some { d := 2, vectors := [] },
    documents := [], metadata := [] }

/-- C6 witness: the precondition theorem applied at the fresh state and at a
loaded-but-empty state. -/
theorem search_add_preconditions_witness :
    (search State.init "q" 5 0 = .error "Model and index must be loaded first" ∧
     add_documents State.init ["a"] none = .error "Model and index must be loaded first") ∧
    search emptyIndexState "q" 5 0 = .ok [] :=
  ⟨(search_add_preconditions State.init "q" 5 0 ["a"] none).1 (Or.inl rfl),
   (search_add_preconditions emptyIndexState "q" 5 0 ["a"] none).2 encZero
     { d := 2, vectors := [] } rfl rfl rfl⟩

/-- C10: whenever `add_documents` returns `False` (an embedding or
index-insertion exception was caught), the engine state is exactly what it
was before the call: the failure happens before any of the three mutations
(`index.add`, `documents.extend`, `metadata.extend`) is kept. -/
theorem add_documents_failure_atomic (sm : State) (documents : List String)
    (meta? : Option (List MetaDict)) (sm' : State)
    (h : add_documents sm documents meta? = .ok (false, sm')) : sm' = sm := by
  obtain ⟨em, ix, docs0, meta0⟩ := sm
  cases em with
  | none => cases ix <;> simp [add_documents] at h
  | some encode =>
    cases ix with
    | none => simp [add_documents] at h
    | some index =>
      rw [add_documents.eq_def] at h
      dsimp only at h
      split at h
      · simp at h
      · simp only [Except.ok.injEq, Prod.mk.injEq, true_and] at h
        exact h.symm

/-- An encode oracle that always raises. -/
def encFail : EncodeFn := fun _ => .error "embedding failure"

/-- A loaded state whose encoder raises on any input. -/
def failEncodeState : State :=
  { embedding_model := some encFail, index := some { d := 2, vectors := [] },
    documents := [], metadata := [] }

/-- C10 witness: a concrete failing `add_documents` call, fed to the
atomicity theorem. -/
theorem add_documents_failure_atomic_witness :
    add_documents failEncodeState ["a"] none = .ok (false, failEncodeState) ∧
    failEncodeState = failEncodeState :=
  ⟨rfl, add_documents_failure_atomic failEncodeState ["a"] none failEncodeState rfl⟩

theorem resultsLoop_mem_bounds (docs : List String) (meta : List MetaDict)
    (threshold : ℚ) :
    ∀ l out, resultsLoop docs meta threshold l = .ok out →
      ∀ r ∈ out, threshold ≤ r.score ∧ 0 ≤ r.index := by
  intro l
  induction l with
  | nil =>
    intro out h r hr
    simp only [resultsLoop, Except.ok.injEq] at h
    subst h
    simp at hr
  | cons si rest ih =>
    intro out h r hr
    obtain ⟨s, i⟩ := si
    rw [resultsLoop] at h
    split at h
    · rename_i hguard
      split at h
      · cases hrest : resultsLoop docs meta threshold rest with
        | error e => rw [hrest] at h; simp [Except.map] at h
        | ok out' =>
          rw [hrest] at h
          simp only [Except.map, Except.ok.injEq] at h
          subst h
          rcases List.mem_cons.mp hr with hr0 | hr'
          · subst hr0
            exact ⟨hguard.2, hguard.1⟩
          · exact ih out' hrest r hr'
      · simp at h
    · exact ih out h r hr

theorem resultsLoop_sublist (docs : List String) (meta : List MetaDict)
    (threshold : ℚ) :
    ∀ l out, resultsLoop docs meta threshold l = .ok out →
      List.Sublist (out.map fun r => (r.score, r.index)) l := by
  intro l
  induction l with
  | nil =>
    intro out h
    simp only [resultsLoop, Except.ok.injEq] at h
    subst h
    simp
  | cons si rest ih =>
    intro out h
    obtain ⟨s, i⟩ := si
    rw [resultsLoop] at h
    split at h
    · split at h
      · cases hrest : resultsLoop docs meta threshold rest with
        | error e => rw [hrest] at h; simp [Except.map] at h
        | ok out' =>
          rw [hrest] at h
          simp only [Except.map, Except.ok.injEq] at h
          subst h
          simpa using List.Sublist.cons₂ (s, i) (ih out' hrest)
      · simp at h
    · exact List.Sublist.cons (s, i) (ih out h)

/-- C5: every `search` result list contains only entries with score at or
above the threshold and non-negative row id, is ordered by similarity
descending, and has at most `min k ntotal` entries. -/
theorem search_result_properties (sm : State) (query : String) (k : Nat)
    (threshold : ℚ) (res : List SearchResult)
    (h : search sm query k threshold = .ok res) :
    (∀ r ∈ res, threshold ≤ r.score ∧ 0 ≤ r.index) ∧
    res.Pairwise (fun a b => b.score ≤ a.score) ∧
    (∀ index, sm.index = some index → res.length ≤ min k index.ntotal) := by
  obtain ⟨em, ix, docs0, meta0⟩ := sm
  cases em with
  | none => cases ix <;> simp [search] at h
  | some encode =>
    cases ix with
    | none => simp [search] at h
    | some index =>
      rw [search] at h
      dsimp only at h
      by_cases h0 : index.ntotal = 0
      · rw [if_pos h0] at h
        simp only [Except.ok.injEq] at h
        subst h
        refine ⟨by simp, by simp, ?_⟩
        intro idx hidx
        simp
      · rw [if_neg h0] at h
        cases hb : searchBody encode index docs0 meta0 query k threshold with
        | error e =>
          rw [hb] at h
          simp only [Except.ok.injEq] at h
          subst h
          refine ⟨by simp, by simp, ?_⟩
          intro idx hidx
          simp
        | ok results =>
          rw [hb] at h
          simp only [Except.ok.injEq] at h
          subst h
          rw [searchBody] at hb
          cases henc : encode [query] with
          | error e => rw [henc] at hb; simp at hb
          | ok rows =>
            rw [henc] at hb
            dsimp only at hb
            cases hhead : rows.head? with
            | none => rw [hhead] at hb; simp at hb
            | some q =>
              rw [hhead] at hb
              dsimp only at hb
              rw [IndexFlatIP.searchTop] at hb
              by_cases hdim : q.length = index.d
              case neg => rw [if_neg hdim] at hb; simp at hb
              case pos =>
                rw [if_pos hdim] at hb
                dsimp only at hb
                have hmem := resultsLoop_mem_bounds docs0 meta0 threshold _ _ hb
                have hsub := resultsLoop_sublist docs0 meta0 threshold _ _ hb
                have hsorted :
                    (List.insertionSort scoreGe (scoredRows index q)).Pairwise scoreGe :=
                  List.sorted_insertionSort scoreGe (scoredRows index q)
                have htake :
                    ((List.insertionSort scoreGe (scoredRows index q)).take
                      (min k index.ntotal)).Pairwise scoreGe :=
                  List.Pairwise.sublist (List.take_sublist _ _) hsorted
                have hmap := List.Pairwise.sublist hsub htake
                rw [List.pairwise_map] at hmap
                refine ⟨hmem, hmap, ?_⟩
                intro idx hidx
                have hii : index = idx := by
                  simpa using hidx
                subst hii
                refine le_trans ?_ (le_trans (List.length_take_le (min k index.ntotal)
                  (List.insertionSort scoreGe (scoredRows index q))) le_rfl)
                have hlen := hsub.length_le
                simpa using hlen

/-- A loaded state with a two-vector index used to exercise `search`. -/
def twoDocState : State :=
  { embedding_model := some encZero,
    index := some { d := 2, vectors := [[(1 : ℚ), 0], [(0 : ℚ), 1]] },
    documents := ["alpha", "beta"], metadata := [[], []] }

/-- C5 witness: the search-property theorem applied to a concrete query over
`twoDocState` with threshold `1/2` (the second document scores 0 and is
filtered out). -/
theorem search_result_properties_witness :
    (∀ r ∈ [({ document := "alpha", metadata := [], score := 1,
               index := 0 } : SearchResult)],
        (1 / 2 : ℚ) ≤ r.score ∧ 0 ≤ r.index) ∧
    ([({ document := "alpha", metadata := [], score := 1,
         index := 0 } : SearchResult)]).Pairwise (fun a b => b.score ≤ a.score) ∧
    (∀ index, twoDocState.index = some index →
      ([({ document := "alpha", metadata := [], score := 1,
           index := 0 } : SearchResult)]).length ≤ min 5 index.ntotal) :=
  search_result_properties twoDocState "q" 5 (1 / 2)
    [{ document := "alpha", metadata := [], score := 1, index := 0 }] (by
      norm_num [search, searchBody, twoDocState, encZero, IndexFlatIP.searchTop,
        IndexFlatIP.ntotal, scoredRows, innerProduct, resultsLoop, scoreGe,
        List.insertionSort, List.orderedInsert, Except.map])

end Insyte.SearchManager

namespace Insyte.DataManager

open Insyte.QAGenerator (QAPair)

/-- A row of the `projects` table (`created_at`/`updated_at`/`metadata` are
timestamps and a free-form blob, irrelevant to the claims and not modelled;
`save_project_document`'s `updated_at` bump therefore leaves the modelled row
unchanged). -/
structure ProjectRow where
  id : Nat
  name : String
  description : String
deriving DecidableEq, Repr

/-- A row of the `project_documents` table (`upload_date`/`metadata`
unmodelled, as above). -/
structure DocumentRow where
  id : Nat
  project_id : Nat
  filename : String
  original_filename : String
  file_type : String
  content : String
  file_size : Nat
  page_count : Nat
deriving DecidableEq, Repr

/-- A row of the `document_qa` table (`created_at` unmodelled). -/
structure QARow where
  id : Nat
  document_id : Nat
  question : String
  answer : String
  source : String
deriving DecidableEq, Repr

/-- The SQLite store state after `create_project_tables`: the three project
tables plus the `AUTOINCREMENT` sequences (SQLite hands out strictly
increasing rowids, never reusing one, which the `next_*` counters model).

Crucially, the schema declares `ON DELETE CASCADE` foreign keys, but SQLite
only enforces foreign keys when a connection runs `PRAGMA foreign_keys = ON`,
and `data_manager.py` opens every connection with a bare
`sqlite3.connect(self.db_path)` and never issues that pragma — so in every
operation below the declared cascades are inert, exactly as at runtime. -/
structure Store where
  projects : List ProjectRow
  project_documents : List DocumentRow
  document_qa : List QARow
  next_project_id : Nat
  next_document_id : Nat
  next_qa_id : Nat
deriving DecidableEq, Repr

/-- The freshly-created empty store (SQLite rowids start at 1). -/
def Store.empty : Store :=
  { projects := [], project_documents := [], document_qa := [],
    next_project_id := 1, next_document_id := 1, next_qa_id := 1 }

/-- `DataManager.create_project(name, description)`: `INSERT INTO projects`;
a `UNIQUE` violation on `name` raises `sqlite3.IntegrityError`, caught and
converted to `None` with the transaction rolled back (no row inserted, no
rowid consumed). -/
def create_project (st : Store) (name description : String) : Option Nat × Store :=
  if st.projects.any (fun p => p.name = name) then (none, st)
  else
    (some st.next_project_id,
     { st with
        projects := st.projects ++ [{ id := st.next_project_id, name := name,
                                      description := description }],
        next_project_id := st.next_project_id + 1 })

/-- `DataManager.delete_project(project_id)`: a single
`DELETE FROM projects WHERE id = ?`.  With foreign-key enforcement off (no
pragma — see `Store`), the declared cascades do not fire: `project_documents`
and `document_qa` are untouched. -/
def delete_project (st : Store) (project_id : Nat) : Bool × Store :=
  (true, { st with projects := st.projects.filter (fun p => p.id ≠ project_id) })

/-- `DataManager.delete_project_document(document_id)`: single-table delete;
the `document_qa` cascade is likewise inert. -/
def delete_project_document (st : Store) (document_id : Nat) : Bool × Store :=
  (true, { st with
    project_documents := st.project_documents.filter (fun d => d.id ≠ document_id) })

/-- `DataManager.save_project_document(...)`: inserts the document row and
bumps the owning project's `updated_at` (a field not modelled, so `projects`
is unchanged here).  With foreign keys unenforced, a dangling `project_id`
would also be accepted — faithful to the runtime. -/
def save_project_document (st : Store) (project_id : Nat)
    (filename original_filename file_type content : String)
    (file_size page_count : Nat) : Option Nat × Store :=
  (some st.next_document_id,
   { st with
      project_documents := st.project_documents ++
        [{ id := st.next_document_id, project_id := project_id,
           filename := filename, original_filename := original_filename,
           file_type := file_type, content := content,
           file_size := file_size, page_count := page_count }],
      next_document_id := st.next_document_id + 1 })

/-- Insert the generated QA pairs one by one, consuming fresh rowids. -/
def insertQaRows (document_id : Nat) (qa_pairs : List QAPair)
    (rows : List QARow) (next_id : Nat) : List QARow × Nat :=
  match qa_pairs with
  | [] => (rows, next_id)
  | qa :: rest =>
    insertQaRows document_id rest
      (rows ++ [{ id := next_id, document_id := document_id,
                  question := qa.question, answer := qa.answer,
                  source := qa.source }]) (next_id + 1)

/-- `DataManager.save_document_qa_pairs(document_id, qa_pairs)`: delete the
document's existing QA rows, then insert the new set. -/
def save_document_qa_pairs (st : Store) (document_id : Nat)
    (qa_pairs : List QAPair) : Bool × Store :=
  let remaining := st.document_qa.filter (fun qa => qa.document_id ≠ document_id)
  let inserted := insertQaRows document_id qa_pairs remaining st.next_qa_id
  (true, { st with document_qa := inserted.1, next_qa_id := inserted.2 })

/-- Store states reachable from a fresh database through the modelled
project-management operations. -/
inductive Reachable : Store → Prop
  | empty : Reachable Store.empty
  | create (st : Store) (name description : String) :
      Reachable st → Reachable (create_project st name description).2
  | deleteProject (st : Store) (project_id : Nat) :
      Reachable st → Reachable (delete_project st project_id).2
  | saveDocument (st : Store) (project_id : Nat)
      (filename original_filename file_type content : String)
      (file_size page_count : Nat) :
      Reachable st → Reachable (save_project_document st project_id filename
        original_filename file_type content file_size page_count).2
  | deleteDocument (st : Store) (document_id : Nat) :
      Reachable st → Reachable (delete_project_document st document_id).2
  | saveQa (st : Store) (document_id : Nat) (qa_pairs : List QAPair) :
      Reachable st → Reachable (save_document_qa_pairs st document_id qa_pairs).2

/-- C7: a `create_project` call whose name already exists returns `None` and
leaves the store — in particular the first project's row — untouched; and in
every reachable store state project names are pairwise distinct (the
`UNIQUE` constraint as an invariant). -/
theorem create_project_duplicate_and_unique :
    (∀ st name description, (∃ p ∈ st.projects, p.name = name) →
      create_project st name description = (none, st)) ∧
    (∀ st, Reachable st → (st.projects.map ProjectRow.name).Nodup) := by
  constructor
  · intro st name description hdup
    have hany : st.projects.any (fun p => p.name = name) = true := by
      obtain ⟨p, hp, hname⟩ := hdup
      exact List.any_eq_true.mpr ⟨p, hp, by simp [hname]⟩
    simp [create_project, hany]
  · intro st h
    induction h with
    | empty => simp [Store.empty]
    | create st name description _ ih =>
      by_cases hany : st.projects.any (fun p => p.name = name) = true
      · have hform : (create_project st name description).2 = st := by
          simp [create_project, hany]
        rw [hform]
        exact ih
      · rw [Bool.not_eq_true] at hany
        have hform : (create_project st name description).2.projects
            = st.projects ++ [{ id := st.next_project_id, name := name,
                                description := description }] := by
          simp [create_project, hany]
        rw [hform, List.map_append, List.nodup_append]
        refine ⟨ih, by simp, ?_⟩
        intro x hx hmem
        simp only [List.map_cons, List.map_nil, List.mem_singleton] at hmem
        obtain ⟨p, hp, hpx⟩ := List.mem_map.mp hx
        have hto : st.projects.any (fun p => p.name = name) = true :=
          List.any_eq_true.mpr ⟨p, hp, by simp [hpx, hmem]⟩
        rw [hany] at hto
        cases hto
    | deleteProject st project_id _ ih =>
      have hsub : List.Sublist ((delete_project st project_id).2.projects.map
          ProjectRow.name) (st.projects.map ProjectRow.name) :=
        List.Sublist.map ProjectRow.name (List.filter_sublist _)
      exact List.Nodup.sublist hsub ih
    | saveDocument st project_id fn ofn ft c fs pc _ ih => exact ih
    | deleteDocument st document_id _ ih => exact ih
    | saveQa st document_id qa_pairs _ ih => exact ih

/-- The store after a successful `create_project("Research", "first")`. -/
def storeResearch : Store := (create_project Store.empty "Research" "first").2

/-- C7 witness: the duplicate-name rejection at a concrete store, and the
uniqueness invariant at the empty store. -/
theorem create_project_duplicate_and_unique_witness :
    create_project storeResearch "Research" "second" = (none, storeResearch) ∧
    (Store.empty.projects.map ProjectRow.name).Nodup :=
  ⟨create_project_duplicate_and_unique.1 storeResearch "Research" "second"
      ⟨{ id := 1, name := "Research", description := "first" }, by decide, rfl⟩,
   create_project_duplicate_and_unique.2 Store.empty Reachable.empty⟩

/-- The C3 failing input: a project holding one document with one QA pair,
built through the store's own operations. -/
def storeC3 : Store :=
  let s1 := (create_project Store.empty "Research" "deep work notes").2
  let s2 := (save_project_document s1 1 "doc1.txt" "doc1.txt" ".txt"
    "deep work requires eliminating distractions" 43 0).2
  (save_document_qa_pairs s2 1
    [{ question := "What is this document about?",
       answer := "deep work requires eliminating distractions",
       source := "doc1.txt" }]).2

/-- C3 (code bug): `delete_project` reports success and removes the project
row, but the project's document row and that document's QA row survive as
orphans — the `ON DELETE CASCADE` clauses never fire because no connection
enables `PRAGMA foreign_keys`.  This contradicts the method's own docstring
("Delete a project and all its documents") and the declared schema intent. -/
theorem delete_project_leaves_orphans :
    (delete_project storeC3 1).1 = true ∧
    (delete_project storeC3 1).2.projects = [] ∧
    ((delete_project storeC3 1).2.project_documents.any
      (fun d => d.project_id = 1)) = true ∧
    ((delete_project storeC3 1).2.document_qa.any
      (fun qa => qa.document_id = 1)) = true := by
  refine ⟨rfl, by decide, by decide, by decide⟩

end Insyte.DataManager

section SanityChecks

open Insyte Insyte.DocumentProcessor

example : splitext "report.PDF" = ("report", ".PDF") := by decide
example : splitext ".bashrc" = (".bashrc", "") := by decide
example : splitext "archive.tar.gz" = ("archive.tar", ".gz") := by decide
example : splitext "noext" = ("noext", "") := by decide
example : utf8Decode? [⟨0x41, by decide⟩, ⟨0xC3, by decide⟩, ⟨0xA9, by decide⟩] =
    some ['A', 'é'] := by decide
example : utf8Decode? [⟨0xFF, by decide⟩] = none := by decide
example : latin1Decode? [⟨0xFF, by decide⟩] = some ['ÿ'] := by decide

end SanityChecks
